/-
Verification of the PHOTO_CAD core: a shallow embedding in Lean 4 of the
snapping pipeline (`src/core/snapping.py`, `src/convert_orthophoto_to_dxf_snapping.py`)
and of the feedback-driven parameter-learning store (`src/learning.py`),
together with proofs and refutations of the specified properties.

Conventions of the embedding:
* Python integers are `ℤ`; exact numeric values (ints and the floats that
  appear in parameter dictionaries and in `np.mean`) are `ℚ`; the real-valued
  trigonometric computations of `snap_to_angles` are modelled over `ℝ`
  (exact real arithmetic in place of IEEE doubles).
* Python `round` is round-half-to-even (`pyRoundQ` / `pyRoundR`); Python
  `int(...)` applied to a float truncates toward zero (`pytruncQ` / `pytruncR`).
* Python dicts are association lists with unique keys and insertion order,
  looked up with `alookup`.
* Fallible code returns `Except PyErr`; mutating methods take and return an
  explicit store state.
-/
import Mathlib

namespace PhotoCad


/-! ## Python numeric primitives -/

/-- Python `int(x)` on a float: truncation toward zero (rational version). -/
def pytruncQ (q : ℚ) : ℤ := if 0 ≤ q then ⌊q⌋ else ⌈q⌉

/-- Python `round(x)`: round half to even (banker's rounding), rational version. -/
def pyRoundQ (q : ℚ) : ℤ :=
  if q - ⌊q⌋ < 1/2 then ⌊q⌋
  else if 1/2 < q - ⌊q⌋ then ⌊q⌋ + 1
  else if Even ⌊q⌋ then ⌊q⌋ else ⌊q⌋ + 1

/-- Python `int(x)` on a float: truncation toward zero (real version). -/
noncomputable def pytruncR (x : ℝ) : ℤ := if 0 ≤ x then ⌊x⌋ else ⌈x⌉

open Classical in
/-- Python `round(x)`: round half to even (banker's rounding), real version. -/
noncomputable def pyRoundR (x : ℝ) : ℤ :=
  if x - ⌊x⌋ < 1/2 then ⌊x⌋
  else if 1/2 < x - ⌊x⌋ then ⌊x⌋ + 1
  else if Even ⌊x⌋ then ⌊x⌋ else ⌊x⌋ + 1

/-- Association-list lookup: first binding wins, as in a Python dict
(the dicts built by the embedded code keep keys unique). -/
def alookup {β : Type} (k : String) : List (String × β) → Option β
  | [] => Option.none
  | kv :: rest => if kv.1 = k then some kv.2 else alookup k rest

/-! ## Learning system (`src/learning.py`)

Data model: a parameter dictionary maps string keys to Python values, of
which the code distinguishes numeric values (`isinstance(value, (int, float))`)
from everything else. -/

/-- A Python value stored in a parameter dictionary. -/
inductive PyVal : Type
  | num (q : ℚ)
  | str (s : String)
  | pynone
deriving DecidableEq

/-- The numeric payload of a value, when `isinstance(value, (int, float))`. -/
def PyVal.toNum : PyVal → Option ℚ
  | .num q => some q
  | _ => Option.none

/-- `FeedbackEntry` of `src/learning.py` (timestamp is caller-supplied in the
model, since `datetime.now()` is an external effect). -/
structure FeedbackEntry : Type where
  image_path : String
  parameters : List (String × PyVal)
  rating : ℤ
  user_notes : Option String
  timestamp : String
deriving DecidableEq

/-- Python exception classes raised or caught by the embedded code. -/
inductive PyErr : Type
  | valueError
  | typeError
  | keyError
  | jsonDecodeError
deriving DecidableEq

/-- `LearningSystem` state: the in-memory history plus the persisted file
content (`none` = no file on disk; `some h` = serialized history `h`). -/
structure Store : Type where
  history : List FeedbackEntry
  file : Option (List FeedbackEntry)
deriving DecidableEq

/-- `LearningSystem._get_default_parameters`. -/
def default_parameters : List (String × PyVal) :=
  [("snap_angle", .num 15),
   ("low_threshold", .num 50),
   ("high_threshold", .num 150),
   ("line_threshold", .num 100),
   ("min_line_length", .num 100),
   ("max_line_gap", .num 10)]

/-- `LearningSystem.add_feedback`: validates `1 <= rating <= 5` (raising
`ValueError` before any mutation otherwise), appends the new entry and
persists the entire history. Returns the updated store and the exception,
if any. -/
def add_feedback (s : Store) (image_path : String) (parameters : List (String × PyVal))
    (rating : ℤ) (user_notes : Option String) (ts : String) : Store × Option PyErr :=
  if ¬(1 ≤ rating ∧ rating ≤ 5) then (s, some .valueError)
  else
    let entry : FeedbackEntry := ⟨image_path, parameters, rating, user_notes, ts⟩
    let h := s.history ++ [entry]
    (⟨h, some h⟩, Option.none)

/-! ### Filename similarity (`LearningSystem._is_similar_image`) -/

/-- A separator character of the regex `[_\-\s.]` used by the code
(ASCII whitespace as matched by Python `\s`). -/
def isSep (c : Char) : Bool :=
  c = '_' || c = '-' || c = '.' || c = ' ' || c = '\t' || c = '\n' ||
  c = '\r' || c = '\x0b' || c = '\x0c'

/-- `re.split(r"[_\-\s.]", l)`: split on every single separator character,
keeping empty pieces between adjacent separators. The result is never empty. -/
def splitSep : List Char → List (List Char)
  | [] => [[]]
  | c :: rest =>
    if isSep c then [] :: splitSep rest
    else
      match splitSep rest with
      | t :: ts => (c :: t) :: ts
      | [] => [[c]]

/-- The component after the last `/` of a path (`pathlib.Path(p).name` for
paths without trailing slashes). -/
def lastComponent (l : List Char) : List Char :=
  l.foldl (fun acc c => if c = '/' then [] else acc ++ [c]) []

/-- Index (from the left) of the last `.` of a name, if any. -/
def lastDotIdx (l : List Char) : Option ℕ :=
  (List.range l.length).foldl
    (fun acc i => if l.getD i ' ' = '.' then some i else acc) Option.none

/-- `pathlib.Path(p).stem`: the final path component with its suffix removed;
the suffix is nonempty only when the last dot is neither the first nor the
last character of the name. -/
def pyStem (p : String) : List Char :=
  let name := lastComponent p.data
  match lastDotIdx name with
  | some i => if 0 < i ∧ i < name.length - 1 then name.take i else name
  | Option.none => name

/-- `Path(p).stem.lower()` (ASCII lowering, as in the filenames at play). -/
def lowerStem (p : String) : List Char := (pyStem p).map Char.toLower

/-- `LearningSystem._is_similar_image`, transcribed from the source: if both
token lists are nonempty (always true for `re.split`) and both first tokens
have length at least 4, compare the first tokens; otherwise compare the
lowered stems for exact equality. -/
def is_similar_image (path1 path2 : String) : Bool :=
  if splitSep (lowerStem path1) ≠ [] ∧ splitSep (lowerStem path2) ≠ [] then
    if 4 ≤ ((splitSep (lowerStem path1)).headD []).length ∧
        4 ≤ ((splitSep (lowerStem path2)).headD []).length then
      decide ((splitSep (lowerStem path1)).headD [] = (splitSep (lowerStem path2)).headD [])
    else decide (lowerStem path1 = lowerStem path2)
  else decide (lowerStem path1 = lowerStem path2)

/-- The first token of a path's lowered stem. -/
def firstToken (p : String) : List Char := (splitSep (lowerStem p)).headD []

/-- The similarity heuristic as the spec words it: two images are similar if
their first tokens (filename without extension, lowered, split on the
separators) match exactly and that token has length at least 4; otherwise
fall back to exact equality of the full (extension-stripped) names. -/
def spec_similar (p q : String) : Prop :=
  (firstToken p = firstToken q ∧ 4 ≤ (firstToken p).length) ∨
  (¬(firstToken p = firstToken q ∧ 4 ≤ (firstToken p).length) ∧ lowerStem p = lowerStem q)

/-! ### Parameter averaging (`LearningSystem._average_parameters`) -/

/-- Register a key in the collection dict if absent (`if key not in param_values`). -/
def addKeyIfAbsent (m : List (String × List ℚ)) (k : String) : List (String × List ℚ) :=
  if (alookup k m).isSome then m else m ++ [(k, [])]

/-- Append a numeric value to the list collected for a key. -/
def appendAt (m : List (String × List ℚ)) (k : String) (q : ℚ) : List (String × List ℚ) :=
  m.map (fun kv => if kv.1 = k then (kv.1, kv.2 ++ [q]) else kv)

/-- One step of the collection loop body over a single `(key, value)` pair. -/
def collectParam (m : List (String × List ℚ)) (kv : String × PyVal) : List (String × List ℚ) :=
  let m1 := addKeyIfAbsent m kv.1
  match kv.2.toNum with
  | some q => appendAt m1 kv.1 q
  | Option.none => m1

/-- Collection loop over one entry's parameter dict. -/
def collectEntry (m : List (String × List ℚ)) (e : FeedbackEntry) : List (String × List ℚ) :=
  e.parameters.foldl collectParam m

/-- `param_values` after the collection loop over all entries. -/
def collectAll (entries : List FeedbackEntry) : List (String × List ℚ) :=
  entries.foldl collectEntry []

/-- `int(np.mean(values))`: the arithmetic mean truncated toward zero. -/
def truncMean (vs : List ℚ) : ℤ := pytruncQ (vs.sum / vs.length)

/-- The entry written into `averaged` for one collected key: skipped when no
numeric value was collected (`if values:`). -/
def avgEntry (kv : String × List ℚ) : Option (String × PyVal) :=
  if kv.2 = [] then Option.none else some (kv.1, PyVal.num (truncMean kv.2))

/-- `LearningSystem._average_parameters`: truncated mean per key with at least
one numeric value, then the defaults fill in the missing keys. -/
def average_parameters (entries : List FeedbackEntry) : List (String × PyVal) :=
  if entries = [] then default_parameters
  else
    (collectAll entries).filterMap avgEntry ++
      default_parameters.filter
        (fun kv => (alookup kv.1 ((collectAll entries).filterMap avgEntry)).isNone)

/-- The numeric values recorded for key `k` in one parameter dict, in order. -/
def valsInParams (k : String) (ps : List (String × PyVal)) : List ℚ :=
  ps.filterMap (fun kv => if kv.1 = k then kv.2.toNum else Option.none)

/-- The numeric values recorded for key `k` across a list of entries, in order. -/
def valuesOf (k : String) : List FeedbackEntry → List ℚ
  | [] => []
  | e :: rest => valsInParams k e.parameters ++ valuesOf k rest

/-- Whether key `k` occurs at all in one parameter dict. -/
def hasKeyParams (k : String) (ps : List (String × PyVal)) : Bool :=
  ps.any (fun kv => kv.1 = k)

/-- Whether key `k` occurs in some entry's parameter dict. -/
def hasKey (k : String) (entries : List FeedbackEntry) : Bool :=
  entries.any (fun e => hasKeyParams k e.parameters)

/-- The restriction of the qualifying set to entries judged similar to the
supplied image path, with the code's fallbacks: no restriction when the path
is `None` or falsy (empty), and the full set when no entry is similar. -/
def restrictToSimilar (good : List FeedbackEntry) : Option String → List FeedbackEntry
  | Option.none => good
  | some p =>
    if p = "" then good
    else if good.filter (fun e => is_similar_image e.image_path p) = [] then good
    else good.filter (fun e => is_similar_image e.image_path p)

/-- `LearningSystem.get_suggested_parameters`. The `image_path` filter is
applied only when the argument is truthy (a non-`None`, nonempty string). -/
def get_suggested_parameters (history : List FeedbackEntry)
    (image_path : Option String) (min_rating : ℤ) : List (String × PyVal) :=
  if history = [] then default_parameters
  else
    if history.filter (fun e => min_rating ≤ e.rating) = [] then default_parameters
    else average_parameters
      (restrictToSimilar (history.filter (fun e => min_rating ≤ e.rating)) image_path)

/-! ### Loading the persisted history (`LearningSystem.load_feedback`) -/

/-- A parsed JSON document. -/
inductive Json : Type
  | null
  | bool (b : Bool)
  | num (q : ℚ)
  | str (s : String)
  | arr (l : List Json)
  | obj (l : List (String × Json))

/-- What the feedback file holds: nothing, bytes that are not valid JSON,
or a valid JSON document. -/
inductive FileContent : Type
  | missing
  | invalid
  | json (j : Json)

/-- Python subscript `data[key]` with a string key: `KeyError` on a dict
without the key, `TypeError` on anything that is not a dict. -/
def jsonSubscript (j : Json) (k : String) : Except PyErr Json :=
  match j with
  | .obj l =>
    match alookup k l with
    | some v => Except.ok v
    | Option.none => Except.error .keyError
  | _ => Except.error .typeError

/-- Python `data.get(key)` on a dict (reached only after a successful
subscript, hence only for dicts). -/
def jsonGet (j : Json) (k : String) : Option Json :=
  match j with
  | .obj l => alookup k l
  | _ => Option.none

/-- Python iteration `for entry in data`: the elements of a list, the keys of
a dict, the one-character strings of a string; `TypeError` otherwise. -/
def jsonIter (j : Json) : Except PyErr (List Json) :=
  match j with
  | .arr l => Except.ok l
  | .obj l => Except.ok (l.map (fun kv => Json.str kv.1))
  | .str s => Except.ok (s.data.map (fun c => Json.str (String.mk [c])))
  | _ => Except.error .typeError

/-- The raw field values pulled out of one JSON entry by
`FeedbackEntry.from_dict` (no further shape validation happens in the code). -/
structure RawEntry : Type where
  image_path : Json
  parameters : Json
  rating : Json
  user_notes : Option Json
  timestamp : Option Json

/-- `FeedbackEntry.from_dict`: three mandatory subscripts, two `.get` calls. -/
def from_dict (j : Json) : Except PyErr RawEntry := do
  let ip ← jsonSubscript j "image_path"
  let ps ← jsonSubscript j "parameters"
  let rt ← jsonSubscript j "rating"
  pure ⟨ip, ps, rt, jsonGet j "user_notes", jsonGet j "timestamp"⟩

/-- The body of the `try` block: iterate the parsed document and parse each
entry, propagating the first exception. -/
def parseHistory (j : Json) : Except PyErr (List RawEntry) := do
  let elems ← jsonIter j
  elems.mapM from_dict

/-- `LearningSystem.load_feedback`, as run by the constructor. The `Bool` is
whether the non-fatal warning was printed. Only `json.JSONDecodeError` and
`KeyError` are caught; any other exception propagates out of construction.
The backing file is never touched by loading. -/
def load_feedback (c : FileContent) : Except PyErr (List RawEntry × Bool) :=
  match c with
  | .missing => Except.ok ([], false)
  | .invalid => Except.ok ([], true)
  | .json j =>
    match parseHistory j with
    | Except.ok entries => Except.ok (entries, false)
    | Except.error .keyError => Except.ok ([], true)
    | Except.error .jsonDecodeError => Except.ok ([], true)
    | Except.error e => Except.error e

/-! ## Snapping (`src/core/snapping.py`)

`snap_to_angles` receives the `cv2.HoughLinesP` output, where each element
wraps exactly one `[x1, y1, x2, y2]` quadruple of pixel (integer)
coordinates; the inner loop `for x1, y1, x2, y2 in line` unpacks that one
quadruple, so the function is a per-segment map. A segment is modelled
directly as the quadruple. -/

/-- A line segment `[x1, y1, x2, y2]` in integer pixel coordinates. -/
structure Seg : Type where
  x1 : ℤ
  y1 : ℤ
  x2 : ℤ
  y2 : ℤ
deriving DecidableEq

open Real in
/-- `np.arctan2(y, x)`: the angle of the point `(x, y)` in `(-π, π]`
(for our integer inputs there are no IEEE signed zeros). -/
noncomputable def atan2 (y x : ℝ) : ℝ :=
  if 0 < x then arctan (y / x)
  else if x < 0 then
    (if 0 ≤ y then arctan (y / x) + π else arctan (y / x) - π)
  else
    (if 0 < y then π / 2 else if y < 0 then -(π / 2) else 0)

/-- `np.sqrt((x2-x1)**2 + (y2-y1)**2)`: the segment length. -/
noncomputable def segLen (s : Seg) : ℝ :=
  Real.sqrt (((s.x2 - s.x1 : ℤ) : ℝ) ^ 2 + ((s.y2 - s.y1 : ℤ) : ℝ) ^ 2)

open Real in
/-- `np.arctan2(y2 - y1, x2 - x1) * 180 / np.pi`: the orientation in degrees. -/
noncomputable def segAngleDeg (s : Seg) : ℝ :=
  atan2 ((s.y2 - s.y1 : ℤ) : ℝ) ((s.x2 - s.x1 : ℤ) : ℝ) * 180 / π

/-- `round(angle / snap_angle) * snap_angle`: the snapped orientation in
degrees (an integer). -/
noncomputable def snappedAngle (snap_angle : ℤ) (s : Seg) : ℤ :=
  pyRoundR (segAngleDeg s / (snap_angle : ℝ)) * snap_angle

open Real in
/-- `np.radians(d)`. -/
noncomputable def radians (d : ℤ) : ℝ := (d : ℝ) * π / 180

/-- The per-segment body of `snap_to_angles`: keep the first endpoint, project
the second along the snapped orientation at the original length, truncate the
new coordinates to integers. -/
noncomputable def snapSegAngle (snap_angle : ℤ) (s : Seg) : Seg :=
  ⟨s.x1, s.y1,
   pytruncR ((s.x1 : ℝ) + segLen s * Real.cos (radians (snappedAngle snap_angle s))),
   pytruncR ((s.y1 : ℝ) + segLen s * Real.sin (radians (snappedAngle snap_angle s)))⟩

/-- `snap_to_angles(lines, snap_angle)`. -/
noncomputable def snap_to_angles (lines : List Seg) (snap_angle : ℤ) : List Seg :=
  lines.map (snapSegAngle snap_angle)

/-- One grid-snapped point: `(round(x / g) * g, round(y / g) * g)`. -/
def snapPoint (g : ℚ) (p : ℚ × ℚ) : ℚ × ℚ :=
  (pyRoundQ (p.1 / g) * g, pyRoundQ (p.2 / g) * g)

/-- `snap_to_grid(lines, grid_size)`: lines as lists of points, each point
snapped independently. -/
def snap_to_grid (lines : List (List (ℚ × ℚ))) (g : ℚ) : List (List (ℚ × ℚ)) :=
  lines.map (fun line => line.map (snapPoint g))

/-- Grid snapping of one integer coordinate by an integer grid size, as it
happens inside `snap_lines` (where all coordinates are ints). -/
def snapCoordZ (g x : ℤ) : ℤ := pyRoundQ ((x : ℚ) / (g : ℚ)) * g

/-- `snap_lines(lines, snap_angle, grid_size)`: always snap to angles, then
optionally snap every endpoint to the grid. -/
noncomputable def snap_lines (lines : List Seg) (snap_angle : ℤ)
    (grid_size : Option ℤ) : List Seg :=
  match grid_size with
  | Option.none => snap_to_angles lines snap_angle
  | some g => (snap_to_angles lines snap_angle).map
      (fun s => ⟨snapCoordZ g s.x1, snapCoordZ g s.y1, snapCoordZ g s.x2, snapCoordZ g s.y2⟩)

/-! ## Pipeline (`src/convert_orthophoto_to_dxf_snapping.py`)

Image decoding, edge detection, line detection and the file exports are
external library services (spec §1, §6); the pipeline is modelled from the
detected raw lines onward, which is all the result counts depend on. -/

/-- The dictionary returned by `convert_orthophoto_to_dxf`. -/
structure ConversionResult : Type where
  lines_detected : ℕ
  lines_snapped : ℕ
  dxf_path : String
  geojson_path : Option String

/-- `convert_orthophoto_to_dxf`, given the raw `detect_lines` output:
snap (no grid), export, and report the counts. -/
noncomputable def convert_orthophoto_to_dxf (lines : List Seg) (dxf_output_path : String)
    (geojson_output_path : Option String) (snap_angle : ℤ) : ConversionResult :=
  let snapped_lines := snap_lines lines snap_angle Option.none
  ⟨lines.length, snapped_lines.length, dxf_output_path, geojson_output_path⟩

/-! ## Basic lemmas about the numeric primitives -/

theorem pytruncQ_intCast (n : ℤ) : pytruncQ (n : ℚ) = n := by
  unfold pytruncQ
  split <;> simp

theorem pytruncR_intCast (n : ℤ) : pytruncR (n : ℝ) = n := by
  unfold pytruncR
  split <;> simp

theorem pytruncR_mono {x y : ℝ} (h : x ≤ y) : pytruncR x ≤ pytruncR y := by
  unfold pytruncR
  by_cases hx : 0 ≤ x
  · rw [if_pos hx, if_pos (le_trans hx h)]
    exact Int.floor_le_floor h
  · rw [if_neg hx]
    by_cases hy : 0 ≤ y
    · rw [if_pos hy]
      have h1 : (⌈x⌉ : ℤ) ≤ 0 := Int.ceil_le.mpr (by exact_mod_cast le_of_not_le hx)
      have h2 : (0 : ℤ) ≤ ⌊y⌋ := Int.floor_nonneg.mpr hy
      omega
    · rw [if_neg hy]
      exact Int.ceil_le_ceil h

/-- Characterization of truncation for nonnegative results. -/
theorem pytruncR_eq_of {x : ℝ} {n : ℤ} (hn : 0 ≤ n) (h1 : (n : ℝ) ≤ x)
    (h2 : x < n + 1) : pytruncR x = n := by
  have hx : 0 ≤ x := le_trans (by exact_mod_cast hn) h1
  unfold pytruncR
  rw [if_pos hx]
  exact Int.floor_eq_iff.mpr ⟨h1, h2⟩

theorem pyRoundR_intCast (n : ℤ) : pyRoundR (n : ℝ) = n := by
  unfold pyRoundR
  rw [Int.floor_intCast]
  norm_num

/-- `pyRoundR` agrees with the nearest integer away from half-integer points. -/
theorem pyRoundR_eq_of {x : ℝ} {n : ℤ} (h1 : (n : ℝ) - 1/2 < x)
    (h2 : x < (n : ℝ) + 1/2) : pyRoundR x = n := by
  have hfl : ⌊x⌋ = n ∨ ⌊x⌋ = n - 1 := by
    have ha : n - 1 ≤ ⌊x⌋ := by
      apply Int.le_floor.mpr
      push_cast
      linarith
    have hb : ⌊x⌋ ≤ n := by
      have hlt : x < ((n + 1 : ℤ) : ℝ) := by push_cast; linarith
      have := Int.floor_lt.mpr hlt
      omega
    omega
  unfold pyRoundR
  rcases hfl with h | h <;> rw [h]
  · rw [if_pos (by linarith)]
  · rw [if_neg (by push_cast; linarith), if_pos (by push_cast; linarith)]
    omega

/-- The specific half-integer value arising in the idempotence counterexample:
`round(1.5) = 2` under round-half-to-even. -/
theorem pyRoundR_three_halves : pyRoundR ((3 : ℝ)/2) = 2 := by
  have hfl : ⌊(3 : ℝ)/2⌋ = 1 := by
    rw [Int.floor_eq_iff]
    norm_num
  unfold pyRoundR
  rw [hfl]
  norm_num [Int.even_iff]

theorem pyRoundR_le {x : ℝ} {c : ℤ} (h : x ≤ c) : pyRoundR x ≤ c := by
  have hfl : ⌊x⌋ ≤ c := by
    have := Int.floor_le_floor h
    rwa [Int.floor_intCast] at this
  unfold pyRoundR
  by_cases heq : ⌊x⌋ = c
  · have hfx : ((⌊x⌋ : ℤ) : ℝ) ≤ x := Int.floor_le x
    have hxc : x = (c : ℝ) := by
      rw [heq] at hfx
      exact le_antisymm h hfx
    have hx : x - ((⌊x⌋ : ℤ) : ℝ) < 1/2 := by
      rw [heq, hxc]
      norm_num
    rw [if_pos hx, heq]
  · have hlt : ⌊x⌋ < c := lt_of_le_of_ne hfl heq
    split
    · omega
    · split
      · omega
      · split <;> omega

theorem le_pyRoundR {x : ℝ} {c : ℤ} (h : (c : ℝ) ≤ x) : c ≤ pyRoundR x := by
  unfold pyRoundR
  have hfl : c ≤ ⌊x⌋ := Int.le_floor.mpr h
  split
  · omega
  · split
    · omega
    · split <;> omega

/-- `snapCoordZ` is `snapPoint` at integer inputs (the round-trip through the
point representation used by `snap_lines`). -/
theorem snapPoint_intCast (g x y : ℤ) :
    snapPoint (g : ℚ) ((x : ℚ), (y : ℚ)) =
      (((snapCoordZ g x : ℤ) : ℚ), ((snapCoordZ g y : ℤ) : ℚ)) := by
  unfold snapPoint snapCoordZ
  push_cast
  rfl

/-! ### Values and range of `atan2` -/

theorem pyRoundR_zero : pyRoundR (0 : ℝ) = 0 := by
  have := pyRoundR_intCast 0
  simpa using this

theorem pyRoundR_one : pyRoundR (1 : ℝ) = 1 := by
  have := pyRoundR_intCast 1
  simpa using this

theorem pyRoundR_neg_one : pyRoundR (-1 : ℝ) = -1 := by
  have := pyRoundR_intCast (-1)
  simpa using this

theorem pyRoundR_two : pyRoundR (2 : ℝ) = 2 := by
  have := pyRoundR_intCast 2
  simpa using this

/-- `round(0.5) = 0` under round-half-to-even. -/
theorem pyRoundR_half : pyRoundR ((1 : ℝ)/2) = 0 := by
  have hfl : ⌊(1 : ℝ)/2⌋ = 0 := by
    rw [Int.floor_eq_iff]
    norm_num
  unfold pyRoundR
  rw [hfl]
  norm_num

theorem atan2_zero_pos {x : ℝ} (hx : 0 < x) : atan2 0 x = 0 := by
  unfold atan2
  rw [if_pos hx, zero_div, Real.arctan_zero]

theorem atan2_zero_neg {x : ℝ} (hx : x < 0) : atan2 0 x = Real.pi := by
  unfold atan2
  rw [if_neg (by linarith), if_pos hx, if_pos le_rfl, zero_div, Real.arctan_zero, zero_add]

theorem atan2_pos_zero {y : ℝ} (hy : 0 < y) : atan2 y 0 = Real.pi / 2 := by
  unfold atan2
  rw [if_neg (lt_irrefl 0), if_neg (lt_irrefl 0), if_pos hy]

theorem atan2_neg_zero {y : ℝ} (hy : y < 0) : atan2 y 0 = -(Real.pi / 2) := by
  unfold atan2
  rw [if_neg (lt_irrefl 0), if_neg (lt_irrefl 0), if_neg (by linarith), if_pos hy]

theorem atan2_zero_zero : atan2 0 0 = 0 := by
  unfold atan2
  norm_num

theorem atan2_of_pos_x {y x : ℝ} (hx : 0 < x) : atan2 y x = Real.arctan (y / x) := by
  unfold atan2
  rw [if_pos hx]

/-- `atan2` lands in `(-π, π]`, hence the degree angle lands in `(-180, 180]`. -/
theorem atan2_mem (y x : ℝ) : -Real.pi < atan2 y x ∧ atan2 y x ≤ Real.pi := by
  have hpi := Real.pi_pos
  have hub := Real.arctan_lt_pi_div_two (y / x)
  have hlb := Real.neg_pi_div_two_lt_arctan (y / x)
  unfold atan2
  by_cases hx : 0 < x
  · rw [if_pos hx]
    constructor <;> linarith
  · rw [if_neg hx]
    by_cases hx2 : x < 0
    · rw [if_pos hx2]
      by_cases hy : 0 ≤ y
      · rw [if_pos hy]
        have hyx : y / x ≤ 0 := div_nonpos_iff.mpr (Or.inl ⟨hy, le_of_lt hx2⟩)
        have harctan : Real.arctan (y / x) ≤ 0 := by
          have := Real.arctan_strictMono.monotone hyx
          rwa [Real.arctan_zero] at this
        constructor <;> linarith
      · rw [if_neg hy]
        have hyx : 0 < y / x := div_pos_of_neg_of_neg (lt_of_not_le hy) hx2
        have harctan : 0 < Real.arctan (y / x) := by
          have := Real.arctan_strictMono hyx
          rwa [Real.arctan_zero] at this
        constructor <;> linarith
    · rw [if_neg hx2]
      by_cases hy : 0 < y
      · rw [if_pos hy]
        constructor <;> linarith
      · rw [if_neg hy]
        by_cases hy2 : y < 0
        · rw [if_pos hy2]
          constructor <;> linarith
        · rw [if_neg hy2]
          constructor <;> linarith

theorem segAngleDeg_mem (s : Seg) : -180 < segAngleDeg s ∧ segAngleDeg s ≤ 180 := by
  have hpi := Real.pi_pos
  obtain ⟨h1, h2⟩ := atan2_mem ((s.y2 - s.y1 : ℤ) : ℝ) ((s.x2 - s.x1 : ℤ) : ℝ)
  unfold segAngleDeg
  constructor
  · rw [lt_div_iff₀ hpi]
    nlinarith
  · rw [div_le_iff₀ hpi]
    nlinarith

/-! ### Evaluation of one angle-snapping step -/

/-- Unfolding of `snapSegAngle` through a computed snapped angle. -/
theorem snapSegAngle_eval (a : ℤ) (s : Seg) (m : ℤ) (hm : snappedAngle a s = m) :
    snapSegAngle a s =
      ⟨s.x1, s.y1,
       pytruncR ((s.x1 : ℝ) + segLen s * Real.cos ((m : ℝ) * Real.pi / 180)),
       pytruncR ((s.y1 : ℝ) + segLen s * Real.sin ((m : ℝ) * Real.pi / 180))⟩ := by
  unfold snapSegAngle radians
  rw [hm]

theorem segLen_nonneg (s : Seg) : 0 ≤ segLen s := Real.sqrt_nonneg _

/-- Length of a horizontal segment pointing right. -/
theorem segLen_horiz_right (s : Seg) (hy : s.y2 = s.y1) (hx : s.x1 ≤ s.x2) :
    segLen s = ((s.x2 - s.x1 : ℤ) : ℝ) := by
  unfold segLen
  have hdx : (0 : ℝ) ≤ ((s.x2 - s.x1 : ℤ) : ℝ) := by
    exact_mod_cast sub_nonneg.mpr hx
  have h0 : ((s.y2 - s.y1 : ℤ) : ℝ) = 0 := by rw [hy]; push_cast; ring
  rw [h0, show ((s.x2 - s.x1 : ℤ) : ℝ) ^ 2 + (0 : ℝ) ^ 2 = ((s.x2 - s.x1 : ℤ) : ℝ) ^ 2 by ring]
  exact Real.sqrt_sq hdx

/-- Length of a horizontal segment pointing left. -/
theorem segLen_horiz_left (s : Seg) (hy : s.y2 = s.y1) (hx : s.x2 < s.x1) :
    segLen s = -((s.x2 - s.x1 : ℤ) : ℝ) := by
  unfold segLen
  have hdx : ((s.x2 - s.x1 : ℤ) : ℝ) < 0 := by
    exact_mod_cast sub_neg.mpr hx
  have h0 : ((s.y2 - s.y1 : ℤ) : ℝ) = 0 := by rw [hy]; push_cast; ring
  rw [h0, show ((s.x2 - s.x1 : ℤ) : ℝ) ^ 2 + (0 : ℝ) ^ 2 = ((s.x2 - s.x1 : ℤ) : ℝ) ^ 2 by ring,
    Real.sqrt_sq_eq_abs]
  exact abs_of_neg hdx

/-- Length of a vertical segment pointing up. -/
theorem segLen_vert_up (s : Seg) (hx : s.x2 = s.x1) (hy : s.y1 ≤ s.y2) :
    segLen s = ((s.y2 - s.y1 : ℤ) : ℝ) := by
  unfold segLen
  have hdy : (0 : ℝ) ≤ ((s.y2 - s.y1 : ℤ) : ℝ) := by
    exact_mod_cast sub_nonneg.mpr hy
  have h0 : ((s.x2 - s.x1 : ℤ) : ℝ) = 0 := by rw [hx]; push_cast; ring
  rw [h0, show (0 : ℝ) ^ 2 + ((s.y2 - s.y1 : ℤ) : ℝ) ^ 2 = ((s.y2 - s.y1 : ℤ) : ℝ) ^ 2 by ring]
  exact Real.sqrt_sq hdy

/-- Length of a vertical segment pointing down. -/
theorem segLen_vert_down (s : Seg) (hx : s.x2 = s.x1) (hy : s.y2 < s.y1) :
    segLen s = -((s.y2 - s.y1 : ℤ) : ℝ) := by
  unfold segLen
  have hdy : ((s.y2 - s.y1 : ℤ) : ℝ) < 0 := by
    exact_mod_cast sub_neg.mpr hy
  have h0 : ((s.x2 - s.x1 : ℤ) : ℝ) = 0 := by rw [hx]; push_cast; ring
  rw [h0, show (0 : ℝ) ^ 2 + ((s.y2 - s.y1 : ℤ) : ℝ) ^ 2 = ((s.y2 - s.y1 : ℤ) : ℝ) ^ 2 by ring,
    Real.sqrt_sq_eq_abs]
  exact abs_of_neg hdy

/-! ### Axis-aligned segments are fixed points of angle snapping -/

/-- A horizontal rightward (or degenerate) integer segment is unchanged by
angle snapping, for any snap angle: its orientation is exactly 0°. -/
theorem snapSegAngle_fix_right (a : ℤ) (s : Seg) (hy : s.y2 = s.y1) (hx : s.x1 ≤ s.x2) :
    snapSegAngle a s = s := by
  have hdy : ((s.y2 - s.y1 : ℤ) : ℝ) = 0 := by rw [hy]; push_cast; ring
  have hdx : (0 : ℝ) ≤ ((s.x2 - s.x1 : ℤ) : ℝ) := by exact_mod_cast sub_nonneg.mpr hx
  have hdeg : segAngleDeg s = 0 := by
    unfold segAngleDeg
    rw [hdy]
    rcases lt_or_eq_of_le hdx with h | h
    · rw [atan2_zero_pos h, zero_mul, zero_div]
    · rw [← h, atan2_zero_zero, zero_mul, zero_div]
  have hm : snappedAngle a s = 0 := by
    unfold snappedAngle
    rw [hdeg, zero_div, pyRoundR_zero, zero_mul]
  rw [snapSegAngle_eval a s 0 hm]
  have hrad : ((0 : ℤ) : ℝ) * Real.pi / 180 = 0 := by push_cast; ring
  rw [hrad, Real.cos_zero, Real.sin_zero, segLen_horiz_right s hy hx]
  have he1 : (s.x1 : ℝ) + ((s.x2 - s.x1 : ℤ) : ℝ) * 1 = ((s.x2 : ℤ) : ℝ) := by push_cast; ring
  have he2 : (s.y1 : ℝ) + ((s.x2 - s.x1 : ℤ) : ℝ) * 0 = ((s.y1 : ℤ) : ℝ) := by push_cast; ring
  rw [he1, he2, pytruncR_intCast, pytruncR_intCast]
  cases s
  simp_all

/-- A horizontal leftward integer segment is unchanged by angle snapping with
snap angle 90 or 180: its orientation is exactly 180°. -/
theorem snapSegAngle_fix_left (a : ℤ) (ha : a = 90 ∨ a = 180) (s : Seg)
    (hy : s.y2 = s.y1) (hx : s.x2 < s.x1) : snapSegAngle a s = s := by
  have hdy : ((s.y2 - s.y1 : ℤ) : ℝ) = 0 := by rw [hy]; push_cast; ring
  have hdx : ((s.x2 - s.x1 : ℤ) : ℝ) < 0 := by exact_mod_cast sub_neg.mpr hx
  have hdeg : segAngleDeg s = 180 := by
    unfold segAngleDeg
    rw [hdy, atan2_zero_neg hdx]
    field_simp
  have hm : snappedAngle a s = 180 := by
    unfold snappedAngle
    rw [hdeg]
    rcases ha with h | h <;> subst h
    · have : (180 : ℝ) / ((90 : ℤ) : ℝ) = 2 := by norm_num
      rw [this, pyRoundR_two]
      norm_num
    · have : (180 : ℝ) / ((180 : ℤ) : ℝ) = 1 := by norm_num
      rw [this, pyRoundR_one]
      norm_num
  rw [snapSegAngle_eval a s 180 hm]
  have hrad : ((180 : ℤ) : ℝ) * Real.pi / 180 = Real.pi := by push_cast; ring
  rw [hrad, Real.cos_pi, Real.sin_pi, segLen_horiz_left s hy hx]
  have he1 : (s.x1 : ℝ) + -((s.x2 - s.x1 : ℤ) : ℝ) * (-1) = ((s.x2 : ℤ) : ℝ) := by
    push_cast; ring
  have he2 : (s.y1 : ℝ) + -((s.x2 - s.x1 : ℤ) : ℝ) * 0 = ((s.y1 : ℤ) : ℝ) := by
    push_cast; ring
  rw [he1, he2, pytruncR_intCast, pytruncR_intCast]
  cases s
  simp_all

/-- A vertical upward integer segment is unchanged by angle snapping with
snap angle 90: its orientation is exactly 90°. -/
theorem snapSegAngle_fix_up (s : Seg) (hx : s.x2 = s.x1) (hy : s.y1 < s.y2) :
    snapSegAngle 90 s = s := by
  have hdx : ((s.x2 - s.x1 : ℤ) : ℝ) = 0 := by rw [hx]; push_cast; ring
  have hdy : (0 : ℝ) < ((s.y2 - s.y1 : ℤ) : ℝ) := by exact_mod_cast sub_pos.mpr hy
  have hdeg : segAngleDeg s = 90 := by
    unfold segAngleDeg
    rw [hdx, atan2_pos_zero hdy]
    field_simp
    ring
  have hm : snappedAngle 90 s = 90 := by
    unfold snappedAngle
    rw [hdeg]
    have : (90 : ℝ) / ((90 : ℤ) : ℝ) = 1 := by norm_num
    rw [this, pyRoundR_one]
    norm_num
  rw [snapSegAngle_eval 90 s 90 hm]
  have hrad : ((90 : ℤ) : ℝ) * Real.pi / 180 = Real.pi / 2 := by push_cast; ring
  rw [hrad, Real.cos_pi_div_two, Real.sin_pi_div_two,
    segLen_vert_up s hx (le_of_lt hy)]
  have he1 : (s.x1 : ℝ) + ((s.y2 - s.y1 : ℤ) : ℝ) * 0 = ((s.x1 : ℤ) : ℝ) := by
    push_cast; ring
  have he2 : (s.y1 : ℝ) + ((s.y2 - s.y1 : ℤ) : ℝ) * 1 = ((s.y2 : ℤ) : ℝ) := by
    push_cast; ring
  rw [he1, he2, pytruncR_intCast, pytruncR_intCast]
  cases s
  simp_all

/-- A vertical downward integer segment is unchanged by angle snapping with
snap angle 90: its orientation is exactly -90°. -/
theorem snapSegAngle_fix_down (s : Seg) (hx : s.x2 = s.x1) (hy : s.y2 < s.y1) :
    snapSegAngle 90 s = s := by
  have hdx : ((s.x2 - s.x1 : ℤ) : ℝ) = 0 := by rw [hx]; push_cast; ring
  have hdy : ((s.y2 - s.y1 : ℤ) : ℝ) < 0 := by exact_mod_cast sub_neg.mpr hy
  have hdeg : segAngleDeg s = -90 := by
    unfold segAngleDeg
    rw [hdx, atan2_neg_zero hdy]
    field_simp
    ring
  have hm : snappedAngle 90 s = -90 := by
    unfold snappedAngle
    rw [hdeg]
    have : (-90 : ℝ) / ((90 : ℤ) : ℝ) = -1 := by norm_num
    rw [this, pyRoundR_neg_one]
    norm_num
  rw [snapSegAngle_eval 90 s (-90) hm]
  have hrad : ((-90 : ℤ) : ℝ) * Real.pi / 180 = -(Real.pi / 2) := by push_cast; ring
  rw [hrad, Real.cos_neg, Real.sin_neg, Real.cos_pi_div_two, Real.sin_pi_div_two,
    segLen_vert_down s hx hy]
  have he1 : (s.x1 : ℝ) + -((s.y2 - s.y1 : ℤ) : ℝ) * 0 = ((s.x1 : ℤ) : ℝ) := by
    push_cast; ring
  have he2 : (s.y1 : ℝ) + -((s.y2 - s.y1 : ℤ) : ℝ) * (-1) = ((s.y2 : ℤ) : ℝ) := by
    push_cast; ring
  rw [he1, he2, pytruncR_intCast, pytruncR_intCast]
  cases s
  simp_all

/-! ### Shape of a snapped segment for axis-aligned snap angles -/

/-- With `snap_angle = 90` the snapped orientation is a multiple of 90°, so the
output segment is horizontal or vertical (its first endpoint is kept). -/
theorem snapSegAngle_shape90 (s : Seg) :
    (snapSegAngle 90 s).y2 = s.y1 ∨ (snapSegAngle 90 s).x2 = s.x1 := by
  obtain ⟨hlb, hub⟩ := segAngleDeg_mem s
  have h90 : ((90 : ℤ) : ℝ) = 90 := by norm_num
  have hql : (-2 : ℝ) < segAngleDeg s / ((90 : ℤ) : ℝ) := by
    rw [h90, lt_div_iff₀ (by norm_num : (0:ℝ) < 90)]
    linarith
  have hqu : segAngleDeg s / ((90 : ℤ) : ℝ) ≤ (2 : ℝ) := by
    rw [h90, div_le_iff₀ (by norm_num : (0:ℝ) < 90)]
    linarith
  have hn1 : (-2 : ℤ) ≤ pyRoundR (segAngleDeg s / ((90 : ℤ) : ℝ)) :=
    le_pyRoundR (by push_cast; linarith)
  have hn2 : pyRoundR (segAngleDeg s / ((90 : ℤ) : ℝ)) ≤ 2 := pyRoundR_le (by push_cast; linarith)
  have hm : snappedAngle 90 s = pyRoundR (segAngleDeg s / ((90 : ℤ) : ℝ)) * 90 := rfl
  have hcases : pyRoundR (segAngleDeg s / ((90 : ℤ) : ℝ)) = -2 ∨
      pyRoundR (segAngleDeg s / ((90 : ℤ) : ℝ)) = -1 ∨
      pyRoundR (segAngleDeg s / ((90 : ℤ) : ℝ)) = 0 ∨
      pyRoundR (segAngleDeg s / ((90 : ℤ) : ℝ)) = 1 ∨
      pyRoundR (segAngleDeg s / ((90 : ℤ) : ℝ)) = 2 := by omega
  rcases hcases with h | h | h | h | h <;> rw [h] at hm <;> norm_num at hm
  · left
    rw [snapSegAngle_eval 90 s (-180) hm]
    have hrad : ((-180 : ℤ) : ℝ) * Real.pi / 180 = -Real.pi := by push_cast; ring
    show pytruncR ((s.y1 : ℝ) + segLen s * Real.sin (((-180 : ℤ) : ℝ) * Real.pi / 180)) = s.y1
    rw [hrad, Real.sin_neg, Real.sin_pi, neg_zero, mul_zero, add_zero, pytruncR_intCast]
  · right
    rw [snapSegAngle_eval 90 s (-90) hm]
    have hrad : ((-90 : ℤ) : ℝ) * Real.pi / 180 = -(Real.pi / 2) := by push_cast; ring
    show pytruncR ((s.x1 : ℝ) + segLen s * Real.cos (((-90 : ℤ) : ℝ) * Real.pi / 180)) = s.x1
    rw [hrad, Real.cos_neg, Real.cos_pi_div_two, mul_zero, add_zero, pytruncR_intCast]
  · left
    rw [snapSegAngle_eval 90 s 0 hm]
    have hrad : ((0 : ℤ) : ℝ) * Real.pi / 180 = 0 := by push_cast; ring
    show pytruncR ((s.y1 : ℝ) + segLen s * Real.sin (((0 : ℤ) : ℝ) * Real.pi / 180)) = s.y1
    rw [hrad, Real.sin_zero, mul_zero, add_zero, pytruncR_intCast]
  · right
    rw [snapSegAngle_eval 90 s 90 hm]
    have hrad : ((90 : ℤ) : ℝ) * Real.pi / 180 = Real.pi / 2 := by push_cast; ring
    show pytruncR ((s.x1 : ℝ) + segLen s * Real.cos (((90 : ℤ) : ℝ) * Real.pi / 180)) = s.x1
    rw [hrad, Real.cos_pi_div_two, mul_zero, add_zero, pytruncR_intCast]
  · left
    rw [snapSegAngle_eval 90 s 180 hm]
    have hrad : ((180 : ℤ) : ℝ) * Real.pi / 180 = Real.pi := by push_cast; ring
    show pytruncR ((s.y1 : ℝ) + segLen s * Real.sin (((180 : ℤ) : ℝ) * Real.pi / 180)) = s.y1
    rw [hrad, Real.sin_pi, mul_zero, add_zero, pytruncR_intCast]

/-- With `snap_angle = 180` the snapped orientation is a multiple of 180°, so
the output segment is horizontal. -/
theorem snapSegAngle_shape180 (s : Seg) : (snapSegAngle 180 s).y2 = s.y1 := by
  obtain ⟨hlb, hub⟩ := segAngleDeg_mem s
  have h180 : ((180 : ℤ) : ℝ) = 180 := by norm_num
  have hn1 : (-1 : ℤ) ≤ pyRoundR (segAngleDeg s / ((180 : ℤ) : ℝ)) := by
    apply le_pyRoundR
    rw [h180, le_div_iff₀ (by norm_num : (0:ℝ) < 180)]
    push_cast
    linarith
  have hn2 : pyRoundR (segAngleDeg s / ((180 : ℤ) : ℝ)) ≤ 1 := by
    apply pyRoundR_le
    rw [h180, div_le_iff₀ (by norm_num : (0:ℝ) < 180)]
    push_cast
    linarith
  have hm : snappedAngle 180 s = pyRoundR (segAngleDeg s / ((180 : ℤ) : ℝ)) * 180 := rfl
  have hcases : pyRoundR (segAngleDeg s / ((180 : ℤ) : ℝ)) = -1 ∨
      pyRoundR (segAngleDeg s / ((180 : ℤ) : ℝ)) = 0 ∨
      pyRoundR (segAngleDeg s / ((180 : ℤ) : ℝ)) = 1 := by omega
  rcases hcases with h | h | h <;> rw [h] at hm <;> norm_num at hm
  · rw [snapSegAngle_eval 180 s (-180) hm]
    have hrad : ((-180 : ℤ) : ℝ) * Real.pi / 180 = -Real.pi := by push_cast; ring
    show pytruncR ((s.y1 : ℝ) + segLen s * Real.sin (((-180 : ℤ) : ℝ) * Real.pi / 180)) = s.y1
    rw [hrad, Real.sin_neg, Real.sin_pi, neg_zero, mul_zero, add_zero, pytruncR_intCast]
  · rw [snapSegAngle_eval 180 s 0 hm]
    have hrad : ((0 : ℤ) : ℝ) * Real.pi / 180 = 0 := by push_cast; ring
    show pytruncR ((s.y1 : ℝ) + segLen s * Real.sin (((0 : ℤ) : ℝ) * Real.pi / 180)) = s.y1
    rw [hrad, Real.sin_zero, mul_zero, add_zero, pytruncR_intCast]
  · rw [snapSegAngle_eval 180 s 180 hm]
    have hrad : ((180 : ℤ) : ℝ) * Real.pi / 180 = Real.pi := by push_cast; ring
    show pytruncR ((s.y1 : ℝ) + segLen s * Real.sin (((180 : ℤ) : ℝ) * Real.pi / 180)) = s.y1
    rw [hrad, Real.sin_pi, mul_zero, add_zero, pytruncR_intCast]

/-- With `snap_angle = 360` every orientation rounds to 0° (the boundary 180°
rounds down to 0 under round-half-to-even), so the output is horizontal and
points rightward. -/
theorem snapSegAngle_shape360 (s : Seg) :
    (snapSegAngle 360 s).y2 = s.y1 ∧ s.x1 ≤ (snapSegAngle 360 s).x2 := by
  obtain ⟨hlb, hub⟩ := segAngleDeg_mem s
  have h360 : ((360 : ℤ) : ℝ) = 360 := by norm_num
  have hn : pyRoundR (segAngleDeg s / ((360 : ℤ) : ℝ)) = 0 := by
    by_cases hh : segAngleDeg s = 180
    · rw [hh, h360, show (180 : ℝ) / 360 = 1/2 by norm_num, pyRoundR_half]
    · apply pyRoundR_eq_of
      · rw [h360]
        push_cast
        rw [lt_div_iff₀ (by norm_num : (0:ℝ) < 360)]
        linarith
      · rw [h360]
        push_cast
        rw [div_lt_iff₀ (by norm_num : (0:ℝ) < 360)]
        have : segAngleDeg s < 180 := lt_of_le_of_ne hub hh
        linarith
  have hm : snappedAngle 360 s = 0 := by
    unfold snappedAngle
    rw [hn, zero_mul]
  rw [snapSegAngle_eval 360 s 0 hm]
  have hrad : ((0 : ℤ) : ℝ) * Real.pi / 180 = 0 := by push_cast; ring
  constructor
  · show pytruncR ((s.y1 : ℝ) + segLen s * Real.sin (((0 : ℤ) : ℝ) * Real.pi / 180)) = s.y1
    rw [hrad, Real.sin_zero, mul_zero, add_zero, pytruncR_intCast]
  · show s.x1 ≤ pytruncR ((s.x1 : ℝ) + segLen s * Real.cos (((0 : ℤ) : ℝ) * Real.pi / 180))
    have hmono : pytruncR ((s.x1 : ℤ) : ℝ) ≤
        pytruncR ((s.x1 : ℝ) + segLen s * Real.cos (((0 : ℤ) : ℝ) * Real.pi / 180)) := by
      apply pytruncR_mono
      rw [hrad, Real.cos_zero, mul_one]
      have := segLen_nonneg s
      linarith
    rwa [pytruncR_intCast] at hmono

/-! ### A concrete non-idempotent trace with `snap_angle = 30` -/

/-- First application: the 45° diagonal `(0,0)-(3,3)` rounds up to 60°
(`round(45/30) = round(1.5) = 2` under round-half-to-even) and truncation
yields `(0,0)-(2,3)`. -/
theorem snapSeg30_first : snapSegAngle 30 ⟨0, 0, 3, 3⟩ = ⟨0, 0, 2, 3⟩ := by
  have s18l : (4 : ℝ) ≤ Real.sqrt 18 := (Real.le_sqrt (by norm_num) (by norm_num)).mpr (by norm_num)
  have s18u : Real.sqrt 18 < 6 := (Real.sqrt_lt' (by norm_num)).mpr (by norm_num)
  have s54 : Real.sqrt 18 * Real.sqrt 3 = Real.sqrt 54 := by
    rw [← Real.sqrt_mul (by norm_num : (0:ℝ) ≤ 18)]
    norm_num
  have s54l : (6 : ℝ) ≤ Real.sqrt 54 := (Real.le_sqrt (by norm_num) (by norm_num)).mpr (by norm_num)
  have s54u : Real.sqrt 54 < 8 := (Real.sqrt_lt' (by norm_num)).mpr (by norm_num)
  have hdeg : segAngleDeg ⟨0, 0, 3, 3⟩ = 45 := by
    show atan2 ((3 - 0 : ℤ) : ℝ) ((3 - 0 : ℤ) : ℝ) * 180 / Real.pi = 45
    rw [show ((3 - 0 : ℤ) : ℝ) = 3 by norm_num, atan2_of_pos_x (by norm_num : (0:ℝ) < 3),
      show (3 : ℝ) / 3 = 1 by norm_num, Real.arctan_one]
    field_simp
    ring
  have hm : snappedAngle 30 ⟨0, 0, 3, 3⟩ = 60 := by
    unfold snappedAngle
    rw [hdeg, show (45 : ℝ) / ((30 : ℤ) : ℝ) = 3/2 by norm_num, pyRoundR_three_halves]
    norm_num
  rw [snapSegAngle_eval 30 _ 60 hm]
  have hL : segLen ⟨0, 0, 3, 3⟩ = Real.sqrt 18 := by
    show Real.sqrt (((3 - 0 : ℤ) : ℝ) ^ 2 + ((3 - 0 : ℤ) : ℝ) ^ 2) = Real.sqrt 18
    norm_num
  have hrad : ((60 : ℤ) : ℝ) * Real.pi / 180 = Real.pi / 3 := by push_cast; ring
  rw [hL, hrad, Real.cos_pi_div_three, Real.sin_pi_div_three]
  have e1 : pytruncR (((Seg.mk 0 0 3 3).x1 : ℝ) + Real.sqrt 18 * (1/2)) = 2 := by
    have harith : ((Seg.mk 0 0 3 3).x1 : ℝ) + Real.sqrt 18 * (1/2) = Real.sqrt 18 / 2 := by
      show ((0 : ℤ) : ℝ) + Real.sqrt 18 * (1/2) = Real.sqrt 18 / 2
      push_cast
      ring
    rw [harith]
    apply pytruncR_eq_of (by norm_num)
    · push_cast
      linarith
    · push_cast
      linarith
  have e2 : pytruncR (((Seg.mk 0 0 3 3).y1 : ℝ) + Real.sqrt 18 * (Real.sqrt 3 / 2)) = 3 := by
    have harith : ((Seg.mk 0 0 3 3).y1 : ℝ) + Real.sqrt 18 * (Real.sqrt 3 / 2) =
        Real.sqrt 54 / 2 := by
      show ((0 : ℤ) : ℝ) + Real.sqrt 18 * (Real.sqrt 3 / 2) = Real.sqrt 54 / 2
      rw [show Real.sqrt 18 * (Real.sqrt 3 / 2) = Real.sqrt 18 * Real.sqrt 3 / 2 by ring, s54]
      push_cast
      ring
    rw [harith]
    apply pytruncR_eq_of (by norm_num)
    · push_cast
      linarith
    · push_cast
      linarith
  rw [e1, e2]

/-- Second application: the truncated segment `(0,0)-(2,3)` has orientation
`arctan(3/2) ≈ 56.3°`, which rounds to 60° again, but the recomputed length
`√13` now truncates to a different second endpoint `(1,3)`. -/
theorem snapSeg30_second : snapSegAngle 30 ⟨0, 0, 2, 3⟩ = ⟨0, 0, 1, 3⟩ := by
  have hpi := Real.pi_pos
  have harc1 : Real.pi / 4 < Real.arctan (3/2) := by
    rw [← Real.arctan_one]
    exact Real.arctan_strictMono (by norm_num)
  have htan3 : Real.arctan (Real.sqrt 3) = Real.pi / 3 := by
    have ht : Real.tan (Real.pi / 3) = Real.sqrt 3 := by
      rw [Real.tan_eq_sin_div_cos, Real.sin_pi_div_three, Real.cos_pi_div_three]
      field_simp
    rw [← ht, Real.arctan_tan (by linarith) (by linarith)]
  have hs3 : (3 : ℝ) / 2 < Real.sqrt 3 := (Real.lt_sqrt (by norm_num)).mpr (by norm_num)
  have harc2 : Real.arctan (3/2) < Real.pi / 3 := htan3 ▸ Real.arctan_strictMono hs3
  have s13l : (2 : ℝ) ≤ Real.sqrt 13 := (Real.le_sqrt (by norm_num) (by norm_num)).mpr (by norm_num)
  have s13u : Real.sqrt 13 < 4 := (Real.sqrt_lt' (by norm_num)).mpr (by norm_num)
  have s39 : Real.sqrt 13 * Real.sqrt 3 = Real.sqrt 39 := by
    rw [← Real.sqrt_mul (by norm_num : (0:ℝ) ≤ 13)]
    norm_num
  have s39l : (6 : ℝ) ≤ Real.sqrt 39 := (Real.le_sqrt (by norm_num) (by norm_num)).mpr (by norm_num)
  have s39u : Real.sqrt 39 < 8 := (Real.sqrt_lt' (by norm_num)).mpr (by norm_num)
  have hdeg : segAngleDeg ⟨0, 0, 2, 3⟩ = Real.arctan (3/2) * 180 / Real.pi := by
    show atan2 ((3 - 0 : ℤ) : ℝ) ((2 - 0 : ℤ) : ℝ) * 180 / Real.pi = _
    rw [show ((3 - 0 : ℤ) : ℝ) = 3 by norm_num, show ((2 - 0 : ℤ) : ℝ) = 2 by norm_num,
      atan2_of_pos_x (by norm_num : (0:ℝ) < 2)]
  have hm : snappedAngle 30 ⟨0, 0, 2, 3⟩ = 60 := by
    unfold snappedAngle
    rw [hdeg]
    have hq : pyRoundR (Real.arctan (3/2) * 180 / Real.pi / ((30 : ℤ) : ℝ)) = 2 := by
      apply pyRoundR_eq_of
      · push_cast
        rw [div_div, lt_div_iff₀ (by positivity : (0:ℝ) < Real.pi * 30)]
        nlinarith
      · push_cast
        rw [div_div, div_lt_iff₀ (by positivity : (0:ℝ) < Real.pi * 30)]
        nlinarith
    rw [hq]
    norm_num
  rw [snapSegAngle_eval 30 _ 60 hm]
  have hL : segLen ⟨0, 0, 2, 3⟩ = Real.sqrt 13 := by
    show Real.sqrt (((2 - 0 : ℤ) : ℝ) ^ 2 + ((3 - 0 : ℤ) : ℝ) ^ 2) = Real.sqrt 13
    norm_num
  have hrad : ((60 : ℤ) : ℝ) * Real.pi / 180 = Real.pi / 3 := by push_cast; ring
  rw [hL, hrad, Real.cos_pi_div_three, Real.sin_pi_div_three]
  have e1 : pytruncR (((Seg.mk 0 0 2 3).x1 : ℝ) + Real.sqrt 13 * (1/2)) = 1 := by
    have harith : ((Seg.mk 0 0 2 3).x1 : ℝ) + Real.sqrt 13 * (1/2) = Real.sqrt 13 / 2 := by
      show ((0 : ℤ) : ℝ) + Real.sqrt 13 * (1/2) = Real.sqrt 13 / 2
      push_cast
      ring
    rw [harith]
    apply pytruncR_eq_of (by norm_num)
    · push_cast
      linarith
    · push_cast
      linarith
  have e2 : pytruncR (((Seg.mk 0 0 2 3).y1 : ℝ) + Real.sqrt 13 * (Real.sqrt 3 / 2)) = 3 := by
    have harith : ((Seg.mk 0 0 2 3).y1 : ℝ) + Real.sqrt 13 * (Real.sqrt 3 / 2) =
        Real.sqrt 39 / 2 := by
      show ((0 : ℤ) : ℝ) + Real.sqrt 13 * (Real.sqrt 3 / 2) = Real.sqrt 39 / 2
      rw [show Real.sqrt 13 * (Real.sqrt 3 / 2) = Real.sqrt 13 * Real.sqrt 3 / 2 by ring, s39]
      push_cast
      ring
    rw [harith]
    apply pytruncR_eq_of (by norm_num)
    · push_cast
      linarith
    · push_cast
      linarith
  rw [e1, e2]

/-! ## Lookup lemmas for the parameter-averaging loops -/

theorem alookup_append_some {β : Type} {a : List (String × β)} {k : String} {v : β}
    (b : List (String × β)) (h : alookup k a = some v) : alookup k (a ++ b) = some v := by
  induction a with
  | nil => simp [alookup] at h
  | cons kv rest ih =>
    by_cases hk : kv.1 = k
    · simp only [alookup, if_pos hk] at h ⊢
      exact h
    · simp only [alookup, if_neg hk] at h ⊢
      exact ih h

theorem alookup_append_none {β : Type} {a : List (String × β)} {k : String}
    (b : List (String × β)) (h : alookup k a = Option.none) :
    alookup k (a ++ b) = alookup k b := by
  induction a with
  | nil => rfl
  | cons kv rest ih =>
    by_cases hk : kv.1 = k
    · simp only [alookup, if_pos hk] at h
      simp at h
    · simp only [alookup, if_neg hk] at h ⊢
      exact ih h

theorem alookup_appendAt_self (m : List (String × List ℚ)) (k : String) (q : ℚ) :
    alookup k (appendAt m k q) = (alookup k m).map (fun vs => vs ++ [q]) := by
  induction m with
  | nil => rfl
  | cons kv rest ih =>
    by_cases hk : kv.1 = k
    · simp only [appendAt, List.map_cons, alookup, if_pos hk]
      rfl
    · simp only [appendAt, List.map_cons, alookup, if_neg hk]
      exact ih

theorem alookup_appendAt_ne (m : List (String × List ℚ)) {k k' : String} (q : ℚ)
    (h : k' ≠ k) : alookup k' (appendAt m k q) = alookup k' m := by
  induction m with
  | nil => rfl
  | cons kv rest ih =>
    by_cases hk : kv.1 = k
    · have hne : kv.1 ≠ k' := by rw [hk]; exact fun e => h e.symm
      simp only [appendAt, List.map_cons, if_pos hk, alookup, if_neg hne]
      exact ih
    · by_cases hk2 : kv.1 = k'
      · simp only [appendAt, List.map_cons, if_neg hk, alookup, if_pos hk2]
      · simp only [appendAt, List.map_cons, if_neg hk, alookup, if_neg hk2]
        exact ih

theorem alookup_addKeyIfAbsent_self (m : List (String × List ℚ)) (k : String) :
    alookup k (addKeyIfAbsent m k) = some ((alookup k m).getD []) := by
  unfold addKeyIfAbsent
  cases h : alookup k m with
  | some vs =>
    rw [if_pos (show (some vs).isSome = true from rfl), h]
    rfl
  | none =>
    rw [if_neg (by simp), alookup_append_none _ h]
    simp [alookup]

theorem alookup_addKeyIfAbsent_ne (m : List (String × List ℚ)) {k k' : String}
    (h : k' ≠ k) : alookup k' (addKeyIfAbsent m k) = alookup k' m := by
  unfold addKeyIfAbsent
  split
  · rfl
  · cases h2 : alookup k' m with
    | some vs => exact alookup_append_some _ h2
    | none =>
      rw [alookup_append_none _ h2]
      have hne : k ≠ k' := fun e => h e.symm
      simp [alookup, hne]

theorem collectParam_lookup_self (m : List (String × List ℚ)) (kv : String × PyVal) :
    alookup kv.1 (collectParam m kv) =
      some ((alookup kv.1 m).getD [] ++ kv.2.toNum.toList) := by
  unfold collectParam
  cases hv : kv.2.toNum with
  | some q =>
    rw [alookup_appendAt_self, alookup_addKeyIfAbsent_self]
    simp [Option.toList]
  | none =>
    rw [alookup_addKeyIfAbsent_self]
    simp [Option.toList]

theorem collectParam_lookup_ne (m : List (String × List ℚ)) (kv : String × PyVal)
    {k : String} (h : k ≠ kv.1) : alookup k (collectParam m kv) = alookup k m := by
  unfold collectParam
  cases kv.2.toNum with
  | some q => rw [alookup_appendAt_ne _ _ h, alookup_addKeyIfAbsent_ne _ h]
  | none => rw [alookup_addKeyIfAbsent_ne _ h]

theorem valsInParams_nil_of {k : String} {ps : List (String × PyVal)}
    (h : hasKeyParams k ps = false) : valsInParams k ps = [] := by
  induction ps with
  | nil => rfl
  | cons kv rest ih =>
    simp only [hasKeyParams, List.any_cons, Bool.or_eq_false_iff] at h
    have hk : kv.1 ≠ k := by
      intro e
      simp [e] at h
    simp only [valsInParams, List.filterMap_cons, if_neg hk]
    exact ih (by simpa [hasKeyParams] using h.2)

theorem valsInParams_cons_self {k : String} {kv : String × PyVal}
    (rest : List (String × PyVal)) (h : kv.1 = k) :
    valsInParams k (kv :: rest) = kv.2.toNum.toList ++ valsInParams k rest := by
  cases hv : kv.2.toNum with
  | some q => simp [valsInParams, List.filterMap_cons, if_pos h, hv, Option.toList]
  | none => simp [valsInParams, List.filterMap_cons, if_pos h, hv, Option.toList]

theorem valsInParams_cons_ne {k : String} {kv : String × PyVal}
    (rest : List (String × PyVal)) (h : kv.1 ≠ k) :
    valsInParams k (kv :: rest) = valsInParams k rest := by
  simp [valsInParams, List.filterMap_cons, if_neg h]

theorem foldl_collectParam_lookup (ps : List (String × PyVal))
    (m : List (String × List ℚ)) (k : String) :
    alookup k (ps.foldl collectParam m) =
      if hasKeyParams k ps then some ((alookup k m).getD [] ++ valsInParams k ps)
      else alookup k m := by
  induction ps generalizing m with
  | nil => simp [hasKeyParams, valsInParams]
  | cons kv rest ih =>
    rw [List.foldl_cons, ih]
    by_cases hk : kv.1 = k
    · have h1 : alookup k (collectParam m kv) =
          some ((alookup k m).getD [] ++ kv.2.toNum.toList) := by
        rw [← hk]
        exact collectParam_lookup_self m kv
      have hhead : hasKeyParams k (kv :: rest) = true := by simp [hasKeyParams, hk]
      rw [hhead, if_pos rfl, valsInParams_cons_self rest hk]
      by_cases hrest : hasKeyParams k rest
      · rw [if_pos hrest, h1]
        simp [List.append_assoc]
      · rw [if_neg hrest, h1, valsInParams_nil_of (by simpa using hrest)]
        simp
    · have h1 : alookup k (collectParam m kv) = alookup k m :=
        collectParam_lookup_ne m kv (fun e => hk e.symm)
      have hhead : hasKeyParams k (kv :: rest) = hasKeyParams k rest := by
        simp [hasKeyParams, hk]
      rw [hhead, h1, valsInParams_cons_ne rest hk]

theorem valuesOf_nil_of {k : String} {entries : List FeedbackEntry}
    (h : hasKey k entries = false) : valuesOf k entries = [] := by
  induction entries with
  | nil => rfl
  | cons e rest ih =>
    simp only [hasKey, List.any_cons, Bool.or_eq_false_iff] at h
    simp only [valuesOf, valsInParams_nil_of h.1, List.nil_append]
    exact ih (by simpa [hasKey] using h.2)

theorem foldl_collectEntry_lookup (entries : List FeedbackEntry)
    (m : List (String × List ℚ)) (k : String) :
    alookup k (entries.foldl collectEntry m) =
      if hasKey k entries then some ((alookup k m).getD [] ++ valuesOf k entries)
      else alookup k m := by
  induction entries generalizing m with
  | nil => simp [hasKey, valuesOf]
  | cons e rest ih =>
    rw [List.foldl_cons, ih]
    have h2 : alookup k (collectEntry m e) =
        if hasKeyParams k e.parameters = true
        then some ((alookup k m).getD [] ++ valsInParams k e.parameters)
        else alookup k m := foldl_collectParam_lookup e.parameters m k
    by_cases hhead : hasKeyParams k e.parameters = true
    · rw [if_pos hhead] at h2
      have hk : hasKey k (e :: rest) = true := by simp [hasKey, hhead]
      by_cases hrest : hasKey k rest = true
      · rw [if_pos hrest, if_pos hk, h2]
        simp [valuesOf, List.append_assoc]
      · rw [if_neg hrest, if_pos hk, h2]
        have hv : valuesOf k rest = [] := valuesOf_nil_of (by simpa using hrest)
        simp [valuesOf, hv]
    · rw [if_neg hhead] at h2
      have hv : valsInParams k e.parameters = [] :=
        valsInParams_nil_of (by simpa using hhead)
      have hk : hasKey k (e :: rest) = hasKey k rest := by simp [hasKey, hhead]
      rw [h2, hk]
      by_cases hrest : hasKey k rest = true
      · rw [if_pos hrest, if_pos hrest]
        simp [valuesOf, hv]
      · rw [if_neg hrest, if_neg hrest]

theorem collectAll_lookup (entries : List FeedbackEntry) (k : String) :
    alookup k (collectAll entries) =
      if hasKey k entries then some (valuesOf k entries) else Option.none := by
  unfold collectAll
  rw [foldl_collectEntry_lookup]
  split
  · simp [alookup]
  · rfl

theorem alookup_filterMap_avg_some :
    ∀ (m : List (String × List ℚ)) (k : String) (vs : List ℚ),
      alookup k m = some vs → vs ≠ [] →
      alookup k (m.filterMap avgEntry) = some (PyVal.num (truncMean vs))
  | [], k, vs, h, _ => by simp [alookup] at h
  | kv :: rest, k, vs, h, hne => by
    by_cases hk : kv.1 = k
    · simp only [alookup, if_pos hk] at h
      obtain rfl : kv.2 = vs := Option.some.inj h
      have hav : avgEntry kv = some (kv.1, PyVal.num (truncMean kv.2)) := by
        unfold avgEntry
        rw [if_neg hne]
      rw [List.filterMap_cons, hav]
      simp only [alookup, if_pos hk]
    · simp only [alookup, if_neg hk] at h
      cases hav : avgEntry kv with
      | none =>
        rw [List.filterMap_cons, hav]
        exact alookup_filterMap_avg_some rest k vs h hne
      | some val =>
        have hval : val.1 = kv.1 := by
          unfold avgEntry at hav
          split at hav
          · simp at hav
          · rw [← Option.some.inj hav]
        rw [List.filterMap_cons, hav]
        simp only [alookup, hval, if_neg hk]
        exact alookup_filterMap_avg_some rest k vs h hne

theorem alookup_filterMap_avg_none :
    ∀ (m : List (String × List ℚ)) (k : String),
      alookup k m = Option.none →
      alookup k (m.filterMap avgEntry) = Option.none
  | [], _, _ => rfl
  | kv :: rest, k, h => by
    by_cases hk : kv.1 = k
    · simp only [alookup, if_pos hk] at h
      simp at h
    · simp only [alookup, if_neg hk] at h
      cases hav : avgEntry kv with
      | none =>
        rw [List.filterMap_cons, hav]
        exact alookup_filterMap_avg_none rest k h
      | some val =>
        have hval : val.1 = kv.1 := by
          unfold avgEntry at hav
          split at hav
          · simp at hav
          · rw [← Option.some.inj hav]
        rw [List.filterMap_cons, hav]
        simp only [alookup, hval, if_neg hk]
        exact alookup_filterMap_avg_none rest k h

theorem alookup_filter_defaults (d : List (String × PyVal))
    (av : List (String × PyVal)) (k : String) (h : alookup k av = Option.none) :
    alookup k (d.filter (fun kv => (alookup kv.1 av).isNone)) = alookup k d := by
  induction d with
  | nil => rfl
  | cons kv rest ih =>
    by_cases hk : kv.1 = k
    · have hpred : (alookup kv.1 av).isNone = true := by rw [hk, h]; rfl
      simp only [List.filter_cons, hpred, if_pos rfl, alookup, if_pos hk]
    · simp only [List.filter_cons]
      split
      · simp only [alookup, if_neg hk]
        exact ih
      · simp only [alookup, if_neg hk]
        exact ih

/-! ## Derived facts about averaging and similarity -/

/-- `re.split` never returns an empty list. -/
theorem splitSep_ne_nil : ∀ l : List Char, splitSep l ≠ []
  | [] => by simp [splitSep]
  | c :: rest => by
    unfold splitSep
    split
    · simp
    · split
      · simp
      · simp

/-- A key with at least one numeric value across the entries is suggested as
the truncated mean of its recorded values. -/
theorem average_parameters_lookup_num (entries : List FeedbackEntry) (k : String)
    (hne : valuesOf k entries ≠ []) :
    alookup k (average_parameters entries) =
      some (PyVal.num (truncMean (valuesOf k entries))) := by
  have hentries : entries ≠ [] := by
    intro h
    subst h
    exact hne rfl
  unfold average_parameters
  rw [if_neg hentries]
  have hkey : hasKey k entries = true := by
    by_contra hc
    exact hne (valuesOf_nil_of (by simpa using hc))
  have hcol : alookup k (collectAll entries) = some (valuesOf k entries) := by
    rw [collectAll_lookup, if_pos hkey]
  exact alookup_append_some _
    (alookup_filterMap_avg_some (collectAll entries) k (valuesOf k entries) hcol hne)

/-- A key absent from every entry falls back to its default binding. -/
theorem average_parameters_lookup_default (entries : List FeedbackEntry) (k : String)
    (hnokey : hasKey k entries = false) :
    alookup k (average_parameters entries) = alookup k default_parameters := by
  by_cases hentries : entries = []
  · subst hentries
    unfold average_parameters
    rw [if_pos rfl]
  · unfold average_parameters
    rw [if_neg hentries]
    have hcol : alookup k (collectAll entries) = Option.none := by
      rw [collectAll_lookup, if_neg (by simp [hnokey])]
    have havg := alookup_filterMap_avg_none (collectAll entries) k hcol
    rw [alookup_append_none _ havg]
    exact alookup_filter_defaults default_parameters _ k havg

/-! ## Claim theorems -/

/-- C1 (amended): angle snapping is idempotent for the divisors of 360 that
are multiples of 90 (90, 180 and 360): for those snap angles the snapped
segments are exactly axis-aligned integer segments, which re-snap to
themselves. For other divisors (e.g. 30) idempotence fails, see the
counterexample. -/
theorem snap_to_angles_idempotent_for_axis_multiples (a : ℤ)
    (ha : a = 90 ∨ a = 180 ∨ a = 360) (lines : List Seg) :
    snap_to_angles (snap_to_angles lines a) a = snap_to_angles lines a := by
  unfold snap_to_angles
  rw [List.map_map]
  apply List.map_congr_left
  intro s _
  show snapSegAngle a (snapSegAngle a s) = snapSegAngle a s
  have hx1 : (snapSegAngle a s).x1 = s.x1 := rfl
  have hy1 : (snapSegAngle a s).y1 = s.y1 := rfl
  rcases ha with h | h | h <;> subst h
  · rcases snapSegAngle_shape90 s with hh | hv
    · by_cases hd : (snapSegAngle 90 s).x1 ≤ (snapSegAngle 90 s).x2
      · exact snapSegAngle_fix_right 90 _ (by rw [hh, hy1]) hd
      · exact snapSegAngle_fix_left 90 (Or.inl rfl) _ (by rw [hh, hy1]) (lt_of_not_le hd)
    · rcases lt_trichotomy (snapSegAngle 90 s).y1 (snapSegAngle 90 s).y2 with hv2 | hv2 | hv2
      · exact snapSegAngle_fix_up _ (by rw [hv, hx1]) hv2
      · have hxx : (snapSegAngle 90 s).x1 = (snapSegAngle 90 s).x2 := by rw [hx1, hv]
        exact snapSegAngle_fix_right 90 _ hv2.symm (le_of_eq hxx)
      · exact snapSegAngle_fix_down _ (by rw [hv, hx1]) hv2
  · have hh := snapSegAngle_shape180 s
    by_cases hd : (snapSegAngle 180 s).x1 ≤ (snapSegAngle 180 s).x2
    · exact snapSegAngle_fix_right 180 _ (by rw [hh, hy1]) hd
    · exact snapSegAngle_fix_left 180 (Or.inr rfl) _ (by rw [hh, hy1]) (lt_of_not_le hd)
  · obtain ⟨hh, hd⟩ := snapSegAngle_shape360 s
    exact snapSegAngle_fix_right 360 _ (by rw [hh, hy1]) (by rw [hx1]; exact hd)

/-- C1 witness: the amended idempotence theorem applied at `snap_angle = 90`
on a concrete segment list. -/
theorem snap_to_angles_idempotent_for_axis_multiples_witness :
    ((90 : ℤ) = 90 ∨ (90 : ℤ) = 180 ∨ (90 : ℤ) = 360) ∧
    snap_to_angles (snap_to_angles [⟨0, 0, 1, 2⟩] 90) 90 =
      snap_to_angles [⟨0, 0, 1, 2⟩] 90 :=
  ⟨Or.inl rfl,
   snap_to_angles_idempotent_for_axis_multiples 90 (Or.inl rfl) [⟨0, 0, 1, 2⟩]⟩

/-- C1 counterexample: `snap_angle = 30` divides 360, yet on the single
45° segment `(0,0)-(3,3)` the snapped output `(0,0)-(2,3)` re-snaps to
`(0,0)-(1,3)`: integer truncation of the second endpoint changes the
recovered orientation and length, so `snap(snap(S)) ≠ snap(S)`. -/
theorem snap_to_angles_not_idempotent_at_30 :
    (30 : ℤ) ∣ 360 ∧
    snap_to_angles (snap_to_angles [⟨0, 0, 3, 3⟩] 30) 30 ≠
      snap_to_angles [⟨0, 0, 3, 3⟩] 30 := by
  refine ⟨⟨12, by norm_num⟩, ?_⟩
  have h1 : snap_to_angles [(⟨0, 0, 3, 3⟩ : Seg)] 30 = [⟨0, 0, 2, 3⟩] := by
    unfold snap_to_angles
    rw [List.map_cons, List.map_nil, snapSeg30_first]
  have h2 : snap_to_angles [(⟨0, 0, 2, 3⟩ : Seg)] 30 = [⟨0, 0, 1, 3⟩] := by
    unfold snap_to_angles
    rw [List.map_cons, List.map_nil, snapSeg30_second]
  rw [h1, h2]
  decide

/-- C6: the Snapper is length-preserving — `snap_lines` returns exactly one
segment per input segment for every snap angle and optional grid size — and
consequently every pipeline run reports `lines_snapped = lines_detected`. -/
theorem snapper_length_preserving :
    (∀ (lines : List Seg) (a : ℤ) (g : Option ℤ),
      (snap_lines lines a g).length = lines.length) ∧
    (∀ (lines : List Seg) (d : String) (gj : Option String) (a : ℤ),
      (convert_orthophoto_to_dxf lines d gj a).lines_snapped =
        (convert_orthophoto_to_dxf lines d gj a).lines_detected) := by
  have h : ∀ (lines : List Seg) (a : ℤ) (g : Option ℤ),
      (snap_lines lines a g).length = lines.length := by
    intro lines a g
    unfold snap_lines snap_to_angles
    cases g <;> simp
  refine ⟨h, fun lines d gj a => ?_⟩
  show (snap_lines lines a Option.none).length = lines.length
  exact h lines a Option.none

/-- C7: for a positive grid size `g`, `snap_to_grid` maps each endpoint
coordinate independently to `round(x/g)*g`, so every output coordinate is an
exact integer multiple of `g`. -/
theorem snap_to_grid_multiples (lines : List (List (ℚ × ℚ))) (g : ℤ) (_hg : 0 < g) :
    snap_to_grid lines (g : ℚ) =
      lines.map (fun line => line.map (snapPoint (g : ℚ))) ∧
    ∀ line ∈ snap_to_grid lines (g : ℚ), ∀ p ∈ line,
      (∃ k : ℤ, p.1 = (k : ℚ) * (g : ℚ)) ∧ (∃ k : ℤ, p.2 = (k : ℚ) * (g : ℚ)) := by
  constructor
  · rfl
  · intro line hline p hp
    unfold snap_to_grid at hline
    rw [List.mem_map] at hline
    obtain ⟨l0, _, rfl⟩ := hline
    rw [List.mem_map] at hp
    obtain ⟨p0, _, rfl⟩ := hp
    exact ⟨⟨pyRoundQ (p0.1 / (g : ℚ)), rfl⟩, ⟨pyRoundQ (p0.2 / (g : ℚ)), rfl⟩⟩

/-- C7 witness: the grid-multiple theorem applied to a concrete line at
`g = 2`. -/
theorem snap_to_grid_multiples_witness :
    (0 : ℤ) < 2 ∧
    (snap_to_grid [[((3 : ℚ), (5 : ℚ))]] ((2 : ℤ) : ℚ) =
        [[((3 : ℚ), (5 : ℚ))]].map (fun line => line.map (snapPoint ((2 : ℤ) : ℚ))) ∧
      ∀ line ∈ snap_to_grid [[((3 : ℚ), (5 : ℚ))]] ((2 : ℤ) : ℚ), ∀ p ∈ line,
        (∃ k : ℤ, p.1 = (k : ℚ) * ((2 : ℤ) : ℚ)) ∧
        (∃ k : ℤ, p.2 = (k : ℚ) * ((2 : ℤ) : ℚ))) :=
  ⟨by norm_num, snap_to_grid_multiples [[((3 : ℚ), (5 : ℚ))]] 2 (by norm_num)⟩

/-- C3: for every rating outside `[1, 5]`, `add_feedback` raises the
validation error (Python `ValueError`) and leaves the store untouched: the
returned state is the input state, so the history count and the persisted
file are unchanged and no entry is appended. -/
theorem add_feedback_invalid_rating (s : Store) (img : String)
    (ps : List (String × PyVal)) (r : ℤ) (un : Option String) (ts : String)
    (h : r < 1 ∨ 5 < r) :
    add_feedback s img ps r un ts = (s, some PyErr.valueError) ∧
    (add_feedback s img ps r un ts).1.history.length = s.history.length ∧
    (add_feedback s img ps r un ts).1.file = s.file := by
  have hc : ¬(1 ≤ r ∧ r ≤ 5) := by omega
  unfold add_feedback
  rw [if_pos hc]
  exact ⟨rfl, rfl, rfl⟩

/-- C3 witness: the invalid-rating theorem applied at ratings 0 and 6 on the
empty store. -/
theorem add_feedback_invalid_rating_witness :
    ((0 : ℤ) < 1 ∨ 5 < (0 : ℤ)) ∧
    add_feedback ⟨[], Option.none⟩ "img.jpg" [] 0 Option.none "t" =
      (⟨[], Option.none⟩, some PyErr.valueError) ∧
    ((6 : ℤ) < 1 ∨ 5 < (6 : ℤ)) ∧
    add_feedback ⟨[], Option.none⟩ "img.jpg" [] 6 Option.none "t" =
      (⟨[], Option.none⟩, some PyErr.valueError) :=
  ⟨Or.inl (by norm_num),
   (add_feedback_invalid_rating ⟨[], Option.none⟩ "img.jpg" [] 0 Option.none "t"
     (Or.inl (by norm_num))).1,
   Or.inr (by norm_num),
   (add_feedback_invalid_rating ⟨[], Option.none⟩ "img.jpg" [] 6 Option.none "t"
     (Or.inr (by norm_num))).1⟩

/-- C8: with an empty history, or no entry rated at least `min_rating`,
`get_suggested_parameters` returns exactly the hard-coded defaults. -/
theorem suggest_defaults (history : List FeedbackEntry) (img : Option String)
    (mr : ℤ) (h : history = [] ∨ ∀ e ∈ history, e.rating < mr) :
    get_suggested_parameters history img mr = default_parameters ∧
    default_parameters =
      [("snap_angle", PyVal.num 15), ("low_threshold", PyVal.num 50),
       ("high_threshold", PyVal.num 150), ("line_threshold", PyVal.num 100),
       ("min_line_length", PyVal.num 100), ("max_line_gap", PyVal.num 10)] := by
  refine ⟨?_, rfl⟩
  unfold get_suggested_parameters
  rcases h with h | h
  · rw [if_pos h]
  · by_cases he : history = []
    · rw [if_pos he]
    · rw [if_neg he]
      have hfil : List.filter (fun e => decide (mr ≤ e.rating)) history = [] := by
        apply List.filter_eq_nil_iff.mpr
        intro e he2
        simp only [decide_eq_true_eq, not_le]
        exact h e he2
      rw [hfil, if_pos rfl]

/-- C8 witness: the defaults theorem applied to the empty history. -/
theorem suggest_defaults_witness :
    (([] : List FeedbackEntry) = [] ∨ ∀ e ∈ ([] : List FeedbackEntry), e.rating < 4) ∧
    (get_suggested_parameters [] Option.none 4 = default_parameters ∧
     default_parameters =
      [("snap_angle", PyVal.num 15), ("low_threshold", PyVal.num 50),
       ("high_threshold", PyVal.num 150), ("line_threshold", PyVal.num 100),
       ("min_line_length", PyVal.num 100), ("max_line_gap", PyVal.num 10)]) :=
  ⟨Or.inl rfl, suggest_defaults [] Option.none 4 (Or.inl rfl)⟩

/-- C5: when at least one entry qualifies (`rating ≥ min_rating`), an image
path is supplied, and no qualifying entry is similar to it, the suggestion is
computed from the full qualifying set, not from the defaults. -/
theorem suggest_fallback_to_qualifying (history : List FeedbackEntry) (p : String)
    (mr : ℤ)
    (hgood : List.filter (fun e => decide (mr ≤ e.rating)) history ≠ [])
    (hnosim : ∀ e ∈ List.filter (fun e => decide (mr ≤ e.rating)) history,
      is_similar_image e.image_path p = false) :
    get_suggested_parameters history (some p) mr =
      average_parameters (List.filter (fun e => decide (mr ≤ e.rating)) history) := by
  have hne : history ≠ [] := by
    intro h
    subst h
    simp at hgood
  unfold get_suggested_parameters
  rw [if_neg hne, if_neg hgood]
  simp only [restrictToSimilar]
  by_cases hp : p = ""
  · rw [if_pos hp]
  · rw [if_neg hp]
    have hsim : List.filter (fun e => is_similar_image e.image_path p)
        (List.filter (fun e => decide (mr ≤ e.rating)) history) = [] := by
      apply List.filter_eq_nil_iff.mpr
      intro e he
      rw [hnosim e he]
      simp
    rw [hsim, if_pos rfl]

/-- C5 witness: one qualifying entry that is not similar to the queried path;
the suggestion is the average over that entry. -/
theorem suggest_fallback_to_qualifying_witness :
    (List.filter (fun e => decide ((4 : ℤ) ≤ e.rating))
        [(⟨"different_image.jpg", [("snap_angle", PyVal.num 30)], 5, Option.none,
          "t"⟩ : FeedbackEntry)] ≠ [] ∧
     ∀ e ∈ List.filter (fun e => decide ((4 : ℤ) ≤ e.rating))
        [(⟨"different_image.jpg", [("snap_angle", PyVal.num 30)], 5, Option.none,
          "t"⟩ : FeedbackEntry)],
       is_similar_image e.image_path "orthophoto_002.jpg" = false) ∧
    get_suggested_parameters
        [(⟨"different_image.jpg", [("snap_angle", PyVal.num 30)], 5, Option.none,
          "t"⟩ : FeedbackEntry)] (some "orthophoto_002.jpg") 4 =
      average_parameters
        (List.filter (fun e => decide ((4 : ℤ) ≤ e.rating))
          [(⟨"different_image.jpg", [("snap_angle", PyVal.num 30)], 5, Option.none,
            "t"⟩ : FeedbackEntry)]) := by
  have hgood : List.filter (fun e => decide ((4 : ℤ) ≤ e.rating))
      [(⟨"different_image.jpg", [("snap_angle", PyVal.num 30)], 5, Option.none,
        "t"⟩ : FeedbackEntry)] ≠ [] := by
    norm_num [List.filter]
  have hnosim : ∀ e ∈ List.filter (fun e => decide ((4 : ℤ) ≤ e.rating))
      [(⟨"different_image.jpg", [("snap_angle", PyVal.num 30)], 5, Option.none,
        "t"⟩ : FeedbackEntry)],
      is_similar_image e.image_path "orthophoto_002.jpg" = false := by
    intro e he
    have hfil : List.filter (fun e => decide ((4 : ℤ) ≤ e.rating))
        [(⟨"different_image.jpg", [("snap_angle", PyVal.num 30)], 5, Option.none,
          "t"⟩ : FeedbackEntry)] =
        [(⟨"different_image.jpg", [("snap_angle", PyVal.num 30)], 5, Option.none,
          "t"⟩ : FeedbackEntry)] := by
      norm_num [List.filter]
    rw [hfil] at he
    rw [List.mem_singleton] at he
    subst he
    decide
  exact ⟨⟨hgood, hnosim⟩,
    suggest_fallback_to_qualifying _ "orthophoto_002.jpg" 4 hgood hnosim⟩

/-- C10: the filename-similarity judgment is symmetric in its two paths. -/
theorem is_similar_image_symm (p q : String) :
    is_similar_image p q = is_similar_image q p := by
  unfold is_similar_image
  by_cases hA : splitSep (lowerStem p) ≠ [] ∧ splitSep (lowerStem q) ≠ []
  · have hA2 : splitSep (lowerStem q) ≠ [] ∧ splitSep (lowerStem p) ≠ [] :=
      ⟨hA.2, hA.1⟩
    rw [if_pos hA, if_pos hA2]
    by_cases hB : 4 ≤ ((splitSep (lowerStem p)).headD []).length ∧
        4 ≤ ((splitSep (lowerStem q)).headD []).length
    · have hB2 : 4 ≤ ((splitSep (lowerStem q)).headD []).length ∧
          4 ≤ ((splitSep (lowerStem p)).headD []).length := ⟨hB.2, hB.1⟩
      rw [if_pos hB, if_pos hB2]
      exact decide_eq_decide.mpr eq_comm
    · have hB2 : ¬(4 ≤ ((splitSep (lowerStem q)).headD []).length ∧
          4 ≤ ((splitSep (lowerStem p)).headD []).length) :=
        fun h2 => hB ⟨h2.2, h2.1⟩
      rw [if_neg hB, if_neg hB2]
      exact decide_eq_decide.mpr eq_comm
  · have hA2 : ¬(splitSep (lowerStem q) ≠ [] ∧ splitSep (lowerStem p) ≠ []) :=
      fun h2 => hA ⟨h2.2, h2.1⟩
    rw [if_neg hA, if_neg hA2]
    exact decide_eq_decide.mpr eq_comm

/-- C9 counterexample: a persisted file whose content is valid JSON but not a
list of entry objects — here the number `5` — is corrupt history data, yet
loading raises an uncaught `TypeError` (the code catches only
`json.JSONDecodeError` and `KeyError`), so constructing the store fails. -/
theorem load_feedback_raises_on_nonlist_json :
    load_feedback (FileContent.json (Json.num 5)) = Except.error PyErr.typeError :=
  rfl

/-- C9 (amended): construction survives a missing file (empty history, no
warning) and files that fail JSON parsing or whose entry objects lack a
required key (empty history, non-fatal warning, file untouched); but JSON
content of a non-iterable shape raises an uncaught `TypeError` — see the
counterexample. -/
theorem load_feedback_amended :
    load_feedback FileContent.missing = Except.ok ([], false) ∧
    load_feedback FileContent.invalid = Except.ok ([], true) ∧
    load_feedback (FileContent.json (Json.arr [Json.obj []])) =
      Except.ok ([], true) :=
  ⟨rfl, rfl, rfl⟩

/-- C2: for every qualifying set and every parameter key with at least one
numeric value, the suggestion is the arithmetic mean of the recorded values
truncated to an integer; a key absent from every qualifying entry takes that
key's default value; and the concrete case of two entries rated ≥ 4 with
`snap_angle` 10 and 20 and no image filter suggests `snap_angle = 15`. -/
theorem suggest_parameters_mean_spec :
    (∀ (entries : List FeedbackEntry) (k : String),
      valuesOf k entries ≠ [] →
      alookup k (average_parameters entries) =
        some (PyVal.num (truncMean (valuesOf k entries)))) ∧
    (∀ (entries : List FeedbackEntry) (k : String),
      hasKey k entries = false →
      alookup k (average_parameters entries) = alookup k default_parameters) ∧
    alookup "snap_angle"
        (get_suggested_parameters
          [⟨"a.jpg", [("snap_angle", PyVal.num 10)], 4, Option.none, "t1"⟩,
           ⟨"b.jpg", [("snap_angle", PyVal.num 20)], 5, Option.none, "t2"⟩]
          Option.none 4) = some (PyVal.num 15) := by
  refine ⟨average_parameters_lookup_num, average_parameters_lookup_default, ?_⟩
  have hsugg : get_suggested_parameters
      [⟨"a.jpg", [("snap_angle", PyVal.num 10)], 4, Option.none, "t1"⟩,
       ⟨"b.jpg", [("snap_angle", PyVal.num 20)], 5, Option.none, "t2"⟩]
      Option.none 4 =
      average_parameters
        [⟨"a.jpg", [("snap_angle", PyVal.num 10)], 4, Option.none, "t1"⟩,
         ⟨"b.jpg", [("snap_angle", PyVal.num 20)], 5, Option.none, "t2"⟩] := by
    unfold get_suggested_parameters
    rw [if_neg (by simp)]
    have hfil : List.filter (fun e => decide ((4 : ℤ) ≤ e.rating))
        [(⟨"a.jpg", [("snap_angle", PyVal.num 10)], 4, Option.none, "t1"⟩ : FeedbackEntry),
         ⟨"b.jpg", [("snap_angle", PyVal.num 20)], 5, Option.none, "t2"⟩] =
        [⟨"a.jpg", [("snap_angle", PyVal.num 10)], 4, Option.none, "t1"⟩,
         ⟨"b.jpg", [("snap_angle", PyVal.num 20)], 5, Option.none, "t2"⟩] := by
      norm_num [List.filter]
    rw [hfil, if_neg (by simp)]
    rfl
  rw [hsugg]
  have hv : valuesOf "snap_angle"
      [(⟨"a.jpg", [("snap_angle", PyVal.num 10)], 4, Option.none, "t1"⟩ : FeedbackEntry),
       ⟨"b.jpg", [("snap_angle", PyVal.num 20)], 5, Option.none, "t2"⟩] = [10, 20] := by
    simp [valuesOf, valsInParams, PyVal.toNum]
  have h1 := average_parameters_lookup_num
    [(⟨"a.jpg", [("snap_angle", PyVal.num 10)], 4, Option.none, "t1"⟩ : FeedbackEntry),
     ⟨"b.jpg", [("snap_angle", PyVal.num 20)], 5, Option.none, "t2"⟩]
    "snap_angle" (by rw [hv]; simp)
  rw [hv] at h1
  rw [h1]
  have htm : truncMean [(10 : ℚ), 20] = 15 := by
    have h : ([(10 : ℚ), 20]).sum / (([(10 : ℚ), 20]).length : ℚ) = ((15 : ℤ) : ℚ) := by
      norm_num
    unfold truncMean pytruncQ
    rw [h, if_pos (by norm_num), Int.floor_intCast]
  rw [htm]
  norm_num

/-- C2 witness: the mean theorem applied to one concrete entry carrying a
single numeric value. -/
theorem suggest_parameters_mean_spec_witness :
    valuesOf "snap_angle"
        [(⟨"x.jpg", [("snap_angle", PyVal.num 7)], 5, Option.none, "t"⟩ :
          FeedbackEntry)] ≠ [] ∧
    alookup "snap_angle"
        (average_parameters
          [(⟨"x.jpg", [("snap_angle", PyVal.num 7)], 5, Option.none, "t"⟩ :
            FeedbackEntry)]) =
      some (PyVal.num (truncMean (valuesOf "snap_angle"
        [(⟨"x.jpg", [("snap_angle", PyVal.num 7)], 5, Option.none, "t"⟩ :
          FeedbackEntry)]))) :=
  ⟨by simp [valuesOf, valsInParams, PyVal.toNum],
   suggest_parameters_mean_spec.1
     [(⟨"x.jpg", [("snap_angle", PyVal.num 7)], 5, Option.none, "t"⟩ : FeedbackEntry)]
     "snap_angle" (by simp [valuesOf, valsInParams, PyVal.toNum])⟩

/-- C4: the code's similarity judgment coincides exactly with the spec's
heuristic (first tokens of the extension-stripped, lowered names match and
have length ≥ 4, else exact full-name equality), and in the concrete
scenario the similar `orthophoto_001` entry wins: the query for
`orthophoto_002.jpg` suggests `snap_angle = 10`, not 30. -/
theorem is_similar_image_spec :
    (∀ p q : String, is_similar_image p q = true ↔ spec_similar p q) ∧
    alookup "snap_angle"
        (get_suggested_parameters
          [⟨"orthophoto_001.jpg", [("snap_angle", PyVal.num 10)], 5, Option.none, "t1"⟩,
           ⟨"different_image.jpg", [("snap_angle", PyVal.num 30)], 5, Option.none, "t2"⟩]
          (some "orthophoto_002.jpg") 4) = some (PyVal.num 10) := by
  constructor
  · intro p q
    unfold is_similar_image spec_similar firstToken
    rw [if_pos ⟨splitSep_ne_nil (lowerStem p), splitSep_ne_nil (lowerStem q)⟩]
    by_cases hB : 4 ≤ ((splitSep (lowerStem p)).headD []).length ∧
        4 ≤ ((splitSep (lowerStem q)).headD []).length
    · rw [if_pos hB]
      constructor
      · intro h
        exact Or.inl ⟨of_decide_eq_true h, hB.1⟩
      · rintro (⟨ht, _⟩ | ⟨_, heq⟩)
        · exact decide_eq_true ht
        · exact decide_eq_true (by rw [heq])
    · rw [if_neg hB]
      constructor
      · intro h
        have heq : lowerStem p = lowerStem q := of_decide_eq_true h
        refine Or.inr ⟨?_, heq⟩
        rintro ⟨ht, hlen⟩
        exact hB ⟨hlen, ht ▸ hlen⟩
      · rintro (⟨ht, hlen⟩ | ⟨_, heq⟩)
        · exact absurd ⟨hlen, ht ▸ hlen⟩ hB
        · exact decide_eq_true heq
  · have e1 : is_similar_image "orthophoto_001.jpg" "orthophoto_002.jpg" = true := by
      decide
    have e2 : is_similar_image "different_image.jpg" "orthophoto_002.jpg" = false := by
      decide
    have hsugg : get_suggested_parameters
        [⟨"orthophoto_001.jpg", [("snap_angle", PyVal.num 10)], 5, Option.none, "t1"⟩,
         ⟨"different_image.jpg", [("snap_angle", PyVal.num 30)], 5, Option.none, "t2"⟩]
        (some "orthophoto_002.jpg") 4 =
        average_parameters
          [⟨"orthophoto_001.jpg", [("snap_angle", PyVal.num 10)], 5, Option.none,
            "t1"⟩] := by
      unfold get_suggested_parameters
      rw [if_neg (by simp)]
      have hfil : List.filter (fun e => decide ((4 : ℤ) ≤ e.rating))
          [(⟨"orthophoto_001.jpg", [("snap_angle", PyVal.num 10)], 5, Option.none,
            "t1"⟩ : FeedbackEntry),
           ⟨"different_image.jpg", [("snap_angle", PyVal.num 30)], 5, Option.none,
            "t2"⟩] =
          [⟨"orthophoto_001.jpg", [("snap_angle", PyVal.num 10)], 5, Option.none, "t1"⟩,
           ⟨"different_image.jpg", [("snap_angle", PyVal.num 30)], 5, Option.none,
            "t2"⟩] := by
        norm_num [List.filter]
      rw [hfil, if_neg (by simp)]
      simp only [restrictToSimilar]
      rw [if_neg (by decide : ¬("orthophoto_002.jpg" = ""))]
      have hsim : List.filter
          (fun e => is_similar_image e.image_path "orthophoto_002.jpg")
          [(⟨"orthophoto_001.jpg", [("snap_angle", PyVal.num 10)], 5, Option.none,
            "t1"⟩ : FeedbackEntry),
           ⟨"different_image.jpg", [("snap_angle", PyVal.num 30)], 5, Option.none,
            "t2"⟩] =
          [⟨"orthophoto_001.jpg", [("snap_angle", PyVal.num 10)], 5, Option.none,
            "t1"⟩] := by
        simp [List.filter, e1, e2]
      rw [hsim, if_neg (by simp)]
    rw [hsugg]
    have hv : valuesOf "snap_angle"
        [(⟨"orthophoto_001.jpg", [("snap_angle", PyVal.num 10)], 5, Option.none,
          "t1"⟩ : FeedbackEntry)] = [10] := by
      simp [valuesOf, valsInParams, PyVal.toNum]
    have h1 := average_parameters_lookup_num
      [(⟨"orthophoto_001.jpg", [("snap_angle", PyVal.num 10)], 5, Option.none,
        "t1"⟩ : FeedbackEntry)]
      "snap_angle" (by rw [hv]; simp)
    rw [hv] at h1
    rw [h1]
    have htm : truncMean [(10 : ℚ)] = 10 := by
      have h : ([(10 : ℚ)]).sum / (([(10 : ℚ)]).length : ℚ) = ((10 : ℤ) : ℚ) := by
        norm_num
      unfold truncMean pytruncQ
      rw [h, if_pos (by norm_num), Int.floor_intCast]
    rw [htm]
    norm_num

end PhotoCad

